import Mathlib

/-
Verification of the postrs-api backend layer (IMAP backend, email facade,
sync reconciler) against its natural-language specification.

The definitions below are shallow embeddings of the Rust source under
src/.  Machine integers (usize) are modelled as Nat; where the source
relies on wrapping arithmetic, the wrap is written out explicitly as
`% 2 ^ 64`.  Fallible operations return Except / Option (Option.none
models a Rust panic).  Components of the repository that are not part of
the provided sources (the sync reconciler, the envelope module) are
modelled from the specification text and marked as such in their doc
comments.
-/

set_option maxHeartbeats 1000000

/-! ## Pagination window of ImapBackend::list_envelope (C2, C7) -/

/-- The usize modulus: Rust release-mode integer arithmetic wraps at 2^64. -/
def usizeW : Nat := 2 ^ 64

/-- Sequence-number window computed by ImapBackend::list_envelope
(src/src/backend/imap/backend.rs lines 396-400) for page_size > 0:
cursor = page * page_size   (wrapping usize multiplication);
begin = 1.max(last_seq - cursor.min(last_seq));
end = begin - begin.min(page_size) + 1;
the fetched IMAP sequence range is "end:begin".  The result is the pair
(end, begin), i.e. (low bound, high bound).  The usize subtractions in
the source are clamped with min and never underflow, and for
page_size ≥ 1 the final + 1 cannot overflow (end ≤ begin there), so Nat
arithmetic is exact for everything but the product, whose wrap is
explicit. -/
def imapPageWindow (lastSeq pageSize page : Nat) : Nat × Nat :=
  let cursor := page * pageSize % usizeW
  let b := max 1 (lastSeq - min cursor lastSeq)
  let e := b - min b pageSize + 1
  (e, b)

/-- Fetch-range string built by ImapBackend::list_envelope (lines 396-403):
"end:begin" when page_size > 0, and "1:*" when page_size = 0. -/
def imapFetchRange (lastSeq pageSize page : Nat) : String :=
  if 0 < pageSize then
    let w := imapPageWindow lastSeq pageSize page
    Nat.repr w.1 ++ ":" ++ Nat.repr w.2
  else "1:*"

/-! ## Page slice of ImapBackend::search_envelope (C3) -/

/-- Page slice computed by ImapBackend::search_envelope
(src/src/backend/imap/backend.rs lines 433-455) on the list of matching
sequence numbers `seqs`:
begin = page * page_size;
end = begin + (page_size - 1)   (wrapping usize arithmetic);
then the Rust slice seqs[begin .. end.min(seqs.len())] is taken.  The
slice panics when begin exceeds end.min(seqs.len()); a panic is modelled
as `none`. -/
def search_envelope_slice (seqs : List String) (pageSize page : Nat) :
    Option (List String) :=
  let b := page * pageSize % usizeW
  let e := (b + (pageSize + (usizeW - 1)) % usizeW) % usizeW
  let e2 := min e seqs.length
  if b ≤ e2 then some ((seqs.drop b).take (e2 - b)) else none

/-! ## Flags and IMAP mailbox model (C4, C5) -/

/-- Canonical flag variants (spec section 3; the Flags collection type of
the repository is a set over these variants). -/
inductive MailFlag where
  | Seen
  | Answered
  | Flagged
  | Deleted
  | Draft
  | Recent
  | Custom (tag : String)
deriving DecidableEq

/-- A message as held by an IMAP folder: server-assigned UID, flag set,
raw RFC 5322 bytes. -/
structure ImapMsg where
  uid : Nat
  flags : Finset MailFlag
  raw : List Nat
deriving DecidableEq

/-- Effect of `STORE seq_range +FLAGS (f)` issued by ImapBackend::add_flags
(lines 569-571): each message whose 1-based sequence number is in the
addressed range gets the union of its flags with f (IMAP +FLAGS server
semantics, spec section 4.1: add is union).  `addr` decides whether a
sequence number is addressed; `i` is the sequence number of the head. -/
def storeAddFlags (addr : Nat → Bool) (f : Finset MailFlag) :
    Nat → List ImapMsg → List ImapMsg
  | _, [] => []
  | i, m :: rest =>
    (if addr i then ⟨m.uid, m.flags ∪ f, m.raw⟩ else m)
      :: storeAddFlags addr f (i + 1) rest

/-- Effect of EXPUNGE (line 573): every message carrying the Deleted flag
is removed from the folder (RFC 3501 EXPUNGE semantics). -/
def expunge (msgs : List ImapMsg) : List ImapMsg :=
  msgs.filter fun m => decide (MailFlag.Deleted ∉ m.flags)

/-- ImapBackend::add_flags (src/src/backend/imap/backend.rs lines 562-576):
SELECT the folder, STORE +FLAGS over the addressed range, then EXPUNGE
the folder.  (ImapBackend::delete_email, lines 558-560, is exactly
add_flags with the Deleted flag.) -/
def add_flags (addr : Nat → Bool) (f : Finset MailFlag) (msgs : List ImapMsg) :
    List ImapMsg :=
  expunge (storeAddFlags addr f 1 msgs)

/-- An IMAP mailbox as relevant to APPEND/SELECT: messages in sequence
order plus the next UID the server will assign. -/
structure ImapMailbox where
  msgs : List ImapMsg
  uidNext : Nat
deriving DecidableEq

/-- ImapBackend::add_email (src/src/backend/imap/backend.rs lines 464-478):
APPEND the message with its initial flags (the server assigns UID
uidNext), then SELECT the folder and return the mailbox's `exists` field
— the message count, i.e. the new message's sequence number — rendered
in decimal. -/
def add_email (mb : ImapMailbox) (raw : List Nat) (flags : Finset MailFlag) :
    ImapMailbox × String :=
  let mb2 : ImapMailbox :=
    ⟨mb.msgs ++ [⟨mb.uidNext, flags, raw⟩], mb.uidNext + 1⟩
  (mb2, Nat.repr mb2.msgs.length)

/-! ## Folder listing (C6) -/

/-- Folder value produced by list_folder (name, delimiter, description). -/
structure Folder where
  name : String
  delim : String
  desc : String
deriving DecidableEq

/-- One mailbox item of the server's LIST response: raw (UTF-7-encoded)
name, hierarchy delimiter and name attributes. -/
structure ImapName where
  name : String
  delim : String
  attrs : List String
deriving DecidableEq

/-- ImapBackend::list_folder (src/src/backend/imap/backend.rs lines
337-366): maps the items of the server's LIST response, in the order the
server reports them, to Folder values; each name is UTF-7-decoded (the
decoder comes from the external utf7_imap crate and is a parameter here)
and the attribute names are joined with a comma.  No sorting or
reordering is performed; the Folders wrapper the result is collected
into is a plain vector and preserves order. -/
def list_folder (decode : String → String) (mboxes : List ImapName) :
    List Folder :=
  mboxes.map fun m => ⟨decode m.name, m.delim, String.intercalate ", " m.attrs⟩

/-! ## Envelope listing (C7) -/

/-- Data of one FETCH (ENVELOPE FLAGS INTERNALDATE) response item, as far
as the envelope-ordering claim needs it. -/
structure FetchEnv where
  uid : Nat
  date : Nat
deriving DecidableEq

/-- Backend-neutral envelope, reduced to the fields the ordering claim
is about. -/
structure Envelope where
  uid : Nat
  date : Nat
deriving DecidableEq

/-- Conversion of one fetch item to an envelope. -/
def toEnvelope (f : FetchEnv) : Envelope :=
  ⟨f.uid, f.date⟩

/-- Modelled from the spec: `envelope::imap::from_raws` (module
src/src/domain/envelope, not among the provided sources; only its call
sites in backend.rs are).  Per the spec's backend contract
(section 4.1), list_envelopes returns envelopes "sorted by date
descending", so the conversion of the raw fetches is modelled as a sort
by date, newest first. -/
def from_raws (fs : List FetchEnv) : List Envelope :=
  List.insertionSort (fun a b => b.date ≤ a.date) (fs.map toEnvelope)

/-- ImapBackend::list_envelope (src/src/backend/imap/backend.rs lines
379-412): SELECT reports EXISTS = mbox.length; if the folder is empty
return no envelopes; otherwise fetch the page window (imapPageWindow for
page_size > 0, the whole folder for page_size = 0, the mailbox being in
sequence order) and convert via from_raws. -/
def list_envelope (mbox : List FetchEnv) (pageSize page : Nat) :
    List Envelope :=
  if mbox.length = 0 then []
  else
    let fetched :=
      if 0 < pageSize then
        let w := imapPageWindow mbox.length pageSize page
        (mbox.drop (w.1 - 1)).take (w.2 - w.1 + 1)
      else mbox
    from_raws fetched

/-- Date-descending comparison on envelopes is decidable. -/
instance envelopeDateDescDecidable :
    DecidableRel (fun a b : Envelope => b.date ≤ a.date) :=
  fun _ _ => Nat.decLe _ _

/-- Date-descending comparison on envelopes is total. -/
instance envelopeDateDescTotal :
    IsTotal Envelope (fun a b => b.date ≤ a.date) :=
  ⟨fun a b => le_total b.date a.date⟩

/-- Date-descending comparison on envelopes is transitive. -/
instance envelopeDateDescTrans :
    IsTrans Envelope (fun a b => b.date ≤ a.date) :=
  ⟨fun _ _ _ h1 h2 => le_trans h2 h1⟩

/-! ## Email facade (C8, C10) -/

/-- Typed errors of the email facade
(src/src/domain/email/email.rs lines 16-49), reduced to the variants the
claims mention. -/
inductive EmailError where
  | ParseEmailError
  | ParseEmailEmptyRawError
  | ParseEmailFromImapFetchesEmptyError
deriving DecidableEq

/-- Abstract parse tree produced by the external mailparse crate. -/
structure ParsedMail where
  content : List Nat
deriving DecidableEq

/-- One IMAP fetch result: it may or may not carry a BODY[] section. -/
structure Fetch where
  body : Option (List Nat)
deriving DecidableEq

/-- RawEmail (src/src/domain/email/email.rs lines 51-57): owned bytes,
borrowed bytes, or an IMAP fetch buffer. -/
inductive RawEmail where
  | vec (bytes : List Nat)
  | bytes (bytes : List Nat)
  | imapFetches (fetches : List Fetch)
deriving DecidableEq

/-- Email (src/src/domain/email/email.rs lines 59-63): raw representation
plus the memoized parse tree. -/
structure Email where
  raw : RawEmail
  parsed : Option ParsedMail
deriving DecidableEq

/-- Email::as_raw (src/src/domain/email/email.rs lines 136-146): owned and
borrowed bytes are returned directly; for an IMAP fetch buffer the first
fetch's body is returned, and the typed error
ParseEmailFromImapFetchesEmptyError when there is none. -/
def Email.as_raw (e : Email) : Except EmailError (List Nat) :=
  match e.raw with
  | .vec v => .ok v
  | .bytes b => .ok b
  | .imapFetches fs =>
    match fs.head?.bind Fetch.body with
    | some b => .ok b
    | none => .error .ParseEmailFromImapFetchesEmptyError

/-- Email::parsed (src/src/domain/email/email.rs lines 66-89): when the
parse tree is already cached it is returned as is; otherwise the raw
bytes are extracted (the same three-armed match as as_raw), parsed with
the external mailparse crate (the `parse` parameter; parse failures map
to ParseEmailError) and the result is cached.  The state of the Email
after the call is returned alongside the parse tree. -/
def Email.parsedFn (parse : List Nat → Except Unit ParsedMail) (e : Email) :
    Except EmailError (ParsedMail × Email) :=
  match e.parsed with
  | some p => .ok (p, e)
  | none =>
    match e.as_raw with
    | .error err => .error err
    | .ok b =>
      match parse b with
      | .error _ => .error .ParseEmailError
      | .ok p => .ok (p, ⟨e.raw, some p⟩)

/-- TryFrom ZeroCopy Vec Fetch for Email
(src/src/domain/email/email.rs lines 395-409): an empty fetch list gives
the typed error ParseEmailFromImapFetchesEmptyError; otherwise the Email
wraps the fetches with no cached parse tree. -/
def email_try_from_fetches (fs : List Fetch) : Except EmailError Email :=
  if fs.isEmpty then .error .ParseEmailFromImapFetchesEmptyError
  else .ok ⟨.imapFetches fs, none⟩

/-- A parse function used by concrete witnesses: wraps the bytes. -/
def parseWrap : List Nat → Except Unit ParsedMail :=
  fun b => .ok ⟨b⟩

/-! ## IDLE notify loop (C9) -/

/-- One wake-up of the ImapBackend::notify loop
(src/src/backend/imap/backend.rs lines 230-279): re-run UID SEARCH
(result w; the imap crate's uid_search returns a HashSet, modelled as a
Finset), keep the uids not in the snapshot set S, invoke the notify
command for each of them and insert each into S.  Returns the grown
snapshot and the set of uids notified on this wake-up. -/
def notifyStep (S w : Finset Nat) : Finset Nat × Finset Nat :=
  (S ∪ (w \ S), w \ S)

/-- The whole notify loop over a list of wake-ups (each wake-up described
by its UID SEARCH result), starting from snapshot S
(ImapBackend::notify, lines 215-280: S is initialized from a first UID
SEARCH, then the loop runs until cancelled).  Returns the final snapshot
and the trace of per-wake-up notified uid sets. -/
def notifyRun : Finset Nat → List (Finset Nat) → Finset Nat × List (Finset Nat)
  | S, [] => (S, [])
  | S, w :: ws =>
    let rest := notifyRun (S ∪ (w \ S)) ws
    (rest.1, (w \ S) :: rest.2)

/-! ## Sync reconciler (C1), modelled from the spec -/

/-- Folder-level reconciliation state: local folder set L, remote folder
set R, and the cached folder names per side (spec section 4.6, table
`folders(account, name, side)`).  Modelled from the spec: the sync
reconciler and its cache are not among the provided sources (only the
integration test src/tests/test_sync.rs is). -/
structure FolderState where
  L : Finset String
  R : Finset String
  Cl : Finset String
  Cr : Finset String
deriving DecidableEq

/-- The "ever seen" folder cache C of spec section 4.7 (union of the two
cached sides). -/
def folderCache (s : FolderState) : Finset String :=
  s.Cl ∪ s.Cr

/-- Folders to create on the remote side: in L, not in R, never cached
(spec section 4.7, row ✓ ✗ ✗). -/
def folderCreateRemote (s : FolderState) : Finset String :=
  (s.L \ s.R) \ folderCache s

/-- Folders to create on the local side: in R, not in L, never cached
(row ✗ ✓ ✗). -/
def folderCreateLocal (s : FolderState) : Finset String :=
  (s.R \ s.L) \ folderCache s

/-- Folders to delete locally: in L, not in R, cached (row ✓ ✗ ✓). -/
def folderDeleteLocal (s : FolderState) : Finset String :=
  (s.L \ s.R) ∩ folderCache s

/-- Folders to delete remotely: in R, not in L, cached (row ✗ ✓ ✓). -/
def folderDeleteRemote (s : FolderState) : Finset String :=
  (s.R \ s.L) ∩ folderCache s

/-- The folder set present on both sides after one folder reconciliation:
folders already on both sides plus the ones just created on one side. -/
def folderSyncP (s : FolderState) : Finset String :=
  (s.L ∩ s.R) ∪ folderCreateRemote s ∪ folderCreateLocal s

/-- Modelled from the spec (section 4.7): one folder reconciliation run.
Creations and deletions are applied to the backends, and the cache is
converged so that each side's cached set reflects the side's post-action
content (the table's ✓ ✓ rows converge the cache to both sides, the
creation rows add the new folder to the cache, the deletion rows remove
it from both cached sides). -/
def folderSync (s : FolderState) : FolderState :=
  ⟨(s.L \ folderDeleteLocal s) ∪ folderCreateLocal s,
   (s.R \ folderDeleteRemote s) ∪ folderCreateRemote s,
   folderSyncP s,
   folderSyncP s⟩

/-- Backend mutations the envelope reconciler can apply for one envelope
id (spec section 4.8: copies, deletes, flag updates). -/
inductive EAct where
  | copyLocalToRemote
  | copyRemoteToLocal
  | deleteLocal
  | deleteRemote
  | setFlagsLocal
  | setFlagsRemote
deriving DecidableEq

/-- Per-envelope-id reconciliation state: the flag set of the envelope on
the local side, the remote side, and in the local and remote cache
(none = the side/cache does not hold the id).  Spec section 4.8 treats
every id independently, so one sync run is the pointwise application of
`envStep` to each id. -/
structure EnvId where
  l : Option (Finset MailFlag)
  r : Option (Finset MailFlag)
  cl : Option (Finset MailFlag)
  cr : Option (Finset MailFlag)
deriving DecidableEq

/-- Modelled from the spec (section 4.8 flag-convergence rule), for one
flag of the closed set {Seen, Answered, Flagged, Draft}: membership l on
the local side, r on the remote side, cl / cr in the caches.  If the
sides agree, keep the value.  If the sides differ and both changed
against their cached value, the union wins except for Seen, which uses
AND; if exactly one side changed, adopt the changed side; if neither
changed (an inconsistent cache), fall back to the union/AND rule. -/
def convergeFlag (isSeen l r cl cr : Bool) : Bool :=
  if l = r then l
  else if l ≠ cl ∧ r ≠ cr then (if isSeen then l && r else l || r)
  else if l ≠ cl then l
  else if r ≠ cr then r
  else (if isSeen then l && r else l || r)

/-- Boolean membership in a flag set. -/
def flagMem (f : MailFlag) (s : Finset MailFlag) : Bool :=
  decide (f ∈ s)

/-- Whether flag f survives convergence of local flags l and remote flags
r against cached flags cl and cr.  Deleted uses OR and Custom flags use
union (spec section 4.8), so any such flag present on either side is
kept; Recent is treated the same way (unaddressed by the spec's rule). -/
def keepFlag (l r cl cr : Finset MailFlag) : MailFlag → Bool
  | .Seen =>
    convergeFlag true (flagMem .Seen l) (flagMem .Seen r)
      (flagMem .Seen cl) (flagMem .Seen cr)
  | .Answered =>
    convergeFlag false (flagMem .Answered l) (flagMem .Answered r)
      (flagMem .Answered cl) (flagMem .Answered cr)
  | .Flagged =>
    convergeFlag false (flagMem .Flagged l) (flagMem .Flagged r)
      (flagMem .Flagged cl) (flagMem .Flagged cr)
  | .Draft =>
    convergeFlag false (flagMem .Draft l) (flagMem .Draft r)
      (flagMem .Draft cl) (flagMem .Draft cr)
  | _ => true

/-- Converged flag set when both sides hold the envelope (spec section
4.8).  Convergence never invents a flag absent from both sides, so the
result is a filtered union. -/
def convergeFlags (l r cl cr : Finset MailFlag) : Finset MailFlag :=
  (l ∪ r).filter fun f => keepFlag l r cl cr f = true

/-- Modelled from the spec (section 4.8): one envelope reconciliation
step for a single id.  The 4-tuple of presences (in L, in R, in Cl, in
Cr) selects the spec's action row; the returned state reflects backend
and cache contents after the row's action, and the returned list holds
the backend mutations applied.  The two 4-tuples the spec's table does
not cover — cached on exactly one side and absent from both backends —
are the Conflict case, which the spec says is ignored and logged. -/
def envStep (s : EnvId) : EnvId × List EAct :=
  match s.l, s.r, s.cl, s.cr with
  | some lf, some rf, cl, cr =>
    let g := convergeFlags lf rf (cl.getD ∅) (cr.getD ∅)
    (⟨some g, some g, some g, some g⟩,
      (if lf = g then [] else [EAct.setFlagsLocal])
        ++ (if rf = g then [] else [EAct.setFlagsRemote]))
  | some lf, none, none, none =>
    (⟨some lf, some lf, some lf, some lf⟩, [EAct.copyLocalToRemote])
  | none, some rf, none, none =>
    (⟨some rf, some rf, some rf, some rf⟩, [EAct.copyRemoteToLocal])
  | some _, none, some _, some _ =>
    (⟨none, none, none, none⟩, [EAct.deleteLocal])
  | none, some _, some _, some _ =>
    (⟨none, none, none, none⟩, [EAct.deleteRemote])
  | none, none, some _, some _ =>
    (⟨none, none, none, none⟩, [])
  | some lf, none, none, some _ =>
    (⟨some lf, none, none, none⟩, [])
  | none, some rf, some _, none =>
    (⟨none, some rf, none, none⟩, [])
  | some lf, none, some _, none =>
    (⟨some lf, some lf, some lf, some lf⟩, [EAct.copyLocalToRemote])
  | none, some rf, none, some _ =>
    (⟨some rf, some rf, some rf, some rf⟩, [EAct.copyRemoteToLocal])
  | none, none, some c, none => (⟨none, none, some c, none⟩, [])
  | none, none, none, some c => (⟨none, none, none, some c⟩, [])
  | none, none, none, none => (⟨none, none, none, none⟩, [])

/-! ## Theorems for C2 -/

/-- Claim C2 counterexample: at EXISTS = 10, page = 2^32 and
page_size = 2^32 the usize product page * page_size wraps to 0, so
list_envelope computes the window (1, 10) and fetches the whole mailbox
(range 1:10), while the claim's integer formula gives the window
[1 .. 1] — the claim's universal window equation is untrue of the
program once the product wraps. -/
theorem list_envelope_window_wrap_counterexample :
    imapPageWindow 10 (2 ^ 32) (2 ^ 32) = (1, 10)
    ∧ max 1 ((10 : ℤ) - (2 ^ 32 : ℤ) * (2 ^ 32 : ℤ)) = 1
    ∧ (10 : Nat) ≠ 1 := by
  exact ⟨by decide, by norm_num, by norm_num⟩

/-- Claim C2 amended: for an IMAP folder whose SELECT reports EXISTS = N
with N ≥ 1, and a page size s > 0, list_envelope fetches exactly the
sequence-number window [max(1, N-(p+1)s+1) .. max(1, N-ps)] (evaluated
over the integers) provided the product p * s does not overflow usize;
when s = 0 it fetches the range 1:*. -/
theorem list_envelope_window_spec (N s p : Nat) (hN : 1 ≤ N) (hs : 1 ≤ s)
    (hw : p * s < usizeW) :
    ((imapPageWindow N s p).1 : ℤ) = max 1 ((N : ℤ) - ((p : ℤ) + 1) * (s : ℤ) + 1)
    ∧ ((imapPageWindow N s p).2 : ℤ) = max 1 ((N : ℤ) - (p : ℤ) * (s : ℤ))
    ∧ imapFetchRange N 0 p = "1:*" := by
  have hcast : ((p : ℤ) + 1) * (s : ℤ) = ((p * s : Nat) : ℤ) + (s : ℤ) := by
    push_cast
    ring
  have hcast2 : (p : ℤ) * (s : ℤ) = ((p * s : Nat) : ℤ) := by
    push_cast
    ring
  have hmod : p * s % usizeW = p * s := Nat.mod_eq_of_lt hw
  refine ⟨?_, ?_, rfl⟩
  · simp only [imapPageWindow, hmod, hcast]
    generalize p * s = q
    omega
  · simp only [imapPageWindow, hmod, hcast2]
    generalize p * s = q
    omega

/-- Witness for the amended C2 at N = 10, s = 5, p = 1: the window is
[1 .. 5]. -/
theorem list_envelope_window_spec_witness :
    (imapPageWindow 10 5 1).1 = 1 ∧ (imapPageWindow 10 5 1).2 = 5
    ∧ imapFetchRange 10 0 1 = "1:*" := by
  obtain ⟨h1, h2, h3⟩ := list_envelope_window_spec 10 5 1 (by norm_num) (by norm_num)
    (by norm_num [usizeW])
  norm_num at h1 h2
  exact ⟨by exact_mod_cast h1, by exact_mod_cast h2, h3⟩

/-! ## Theorems for C3 -/

/-- Claim C3 counterexample: with 2 matching messages, page_size = 3 and
page = 1 (a page past the last result), the slice computation in
search_envelope is seqs[3 .. 2], which panics — contradicting the claim
that the page-window computation never panics for a page past the last
result. -/
theorem search_envelope_slice_panics_counterexample :
    search_envelope_slice ["1", "2"] 3 1 = none := by
  decide

/-- Claim C3 amended: with page_size = 0 the slice computation of
search_envelope is total and returns all matching sequence numbers on
one page (for every page, under Rust release wrapping arithmetic); but
with page_size > 0 and page * page_size beyond the number of matches the
slice panics (`none`). -/
theorem search_envelope_slice_amended :
    (∀ (seqs : List String) (page : Nat), seqs.length < usizeW →
      search_envelope_slice seqs 0 page = some seqs)
    ∧ (∀ (seqs : List String) (pageSize page : Nat), 0 < pageSize →
      page * pageSize < usizeW → seqs.length < page * pageSize →
      search_envelope_slice seqs pageSize page = none) := by
  have hW : usizeW = 18446744073709551616 := by norm_num [usizeW]
  constructor
  · intro seqs page hlen
    simp only [search_envelope_slice, Nat.mul_zero, Nat.zero_mod, Nat.zero_add]
    rw [hW] at hlen ⊢
    norm_num
    omega
  · intro seqs pageSize page hps hmul hlen
    simp only [search_envelope_slice]
    rw [if_neg]
    intro hc
    have h2 : page * pageSize % usizeW = page * pageSize := Nat.mod_eq_of_lt hmul
    have h3 := le_trans hc (min_le_right _ _)
    rw [h2] at h3
    omega

/-- Witness for the amended C3: page_size = 0 returns the single match
on one page even for page 5, and page 2 of page size 2 over 3 matches
panics. -/
theorem search_envelope_slice_amended_witness :
    search_envelope_slice ["7"] 0 5 = some ["7"]
    ∧ search_envelope_slice ["1", "2", "3"] 2 2 = none :=
  ⟨search_envelope_slice_amended.1 ["7"] 5 (by norm_num [usizeW]),
   search_envelope_slice_amended.2 ["1", "2", "3"] 2 2 (by norm_num)
     (by norm_num [usizeW]) (by norm_num)⟩

/-! ## Theorems for C4 -/

/-- Claim C4 counterexample: add_flags with the flag set {Deleted} on a
one-message folder leaves the folder empty — the STORE is followed by an
EXPUNGE, so the addressed message is removed, contradicting the claim
that no message is removed from the folder by the operation. -/
theorem add_flags_expunges_counterexample :
    add_flags (fun _ => true) {MailFlag.Deleted} [⟨1, ∅, []⟩] = []
    ∧ ([(⟨1, ∅, []⟩ : ImapMsg)] : List ImapMsg).length = 1 := by
  decide

/-- Claim C4 amended: provided the added flag set does not contain
Deleted and no message of the folder already carries Deleted, add_flags
twice equals add_flags once, and one add_flags call only replaces each
addressed message's flag set by its union with f (the trailing EXPUNGE
removes nothing, so no message is removed).  In general add_flags also
expunges the folder, removing every message whose resulting flags
contain Deleted. -/
theorem add_flags_idempotent_of_no_deleted (addr : Nat → Bool) (f : Finset MailFlag)
    (msgs : List ImapMsg) (hf : MailFlag.Deleted ∉ f)
    (hm : ∀ m ∈ msgs, MailFlag.Deleted ∉ m.flags) :
    add_flags addr f (add_flags addr f msgs) = add_flags addr f msgs
    ∧ add_flags addr f msgs = storeAddFlags addr f 1 msgs := by
  have hstore : ∀ (i : Nat) (l : List ImapMsg), (∀ m ∈ l, MailFlag.Deleted ∉ m.flags) →
      ∀ m ∈ storeAddFlags addr f i l, MailFlag.Deleted ∉ m.flags := by
    intro i l
    induction l generalizing i with
    | nil => intro _ m hmem; simp [storeAddFlags] at hmem
    | cons a rest ih =>
      intro hl m hmem
      simp only [storeAddFlags, List.mem_cons] at hmem
      rcases hmem with hm1 | hm2
      · subst hm1
        by_cases ha : addr i
        · simp only [ha, if_true, Finset.mem_union]
          push_neg
          exact ⟨hl a (by simp), hf⟩
        · simp only [ha, if_false]
          exact hl a (by simp)
      · exact ih (i + 1) (fun x hx => hl x (by simp [hx])) m hm2
  have hexp : ∀ l : List ImapMsg, (∀ m ∈ l, MailFlag.Deleted ∉ m.flags) → expunge l = l := by
    intro l hl
    unfold expunge
    rw [List.filter_eq_self]
    intro m hmem
    simpa using hl m hmem
  have hidem : ∀ (i : Nat) (l : List ImapMsg),
      storeAddFlags addr f i (storeAddFlags addr f i l) = storeAddFlags addr f i l := by
    intro i l
    induction l generalizing i with
    | nil => rfl
    | cons a rest ih =>
      by_cases ha : addr i
      · simp only [storeAddFlags, ha, if_true, Finset.union_assoc, Finset.union_self]
        exact congrArg _ (ih (i + 1))
      · simp only [storeAddFlags, ha, if_false]
        exact congrArg _ (ih (i + 1))
  have h2 : add_flags addr f msgs = storeAddFlags addr f 1 msgs := by
    unfold add_flags
    exact hexp _ (hstore 1 msgs hm)
  refine ⟨?_, h2⟩
  rw [h2]
  unfold add_flags
  rw [hexp _ (hstore 1 _ (hstore 1 msgs hm)), hidem]

/-- Witness for the amended C4 on a concrete one-message folder with the
Seen flag. -/
theorem add_flags_idempotent_of_no_deleted_witness :
    add_flags (fun _ => true) {MailFlag.Seen}
        (add_flags (fun _ => true) {MailFlag.Seen} [⟨1, ∅, [0]⟩])
      = add_flags (fun _ => true) {MailFlag.Seen} [⟨1, ∅, [0]⟩]
    ∧ add_flags (fun _ => true) {MailFlag.Seen} [⟨1, ∅, [0]⟩]
      = storeAddFlags (fun _ => true) {MailFlag.Seen} 1 [⟨1, ∅, [0]⟩] :=
  add_flags_idempotent_of_no_deleted (fun _ => true) {MailFlag.Seen}
    [⟨1, ∅, [0]⟩] (by decide) (by decide)

/-! ## Theorems for C5 -/

/-- Claim C5 counterexample: in a mailbox holding one message of UID 5
(uidNext = 6), add_email returns "2" — the post-append EXISTS count,
i.e. the new message's sequence number — while the appended message's
UID is 6; the returned string is not the UID. -/
theorem add_email_returns_count_counterexample :
    (add_email ⟨[⟨5, ∅, []⟩], 6⟩ [] ∅).2 = "2"
    ∧ ((add_email ⟨[⟨5, ∅, []⟩], 6⟩ [] ∅).1.msgs.getLast?).map ImapMsg.uid = some 6
    ∧ ("2" : String) ≠ "6" := by
  refine ⟨rfl, rfl, by decide⟩

/-- Claim C5 amended: add_email appends the message verbatim with the
server-assigned UID and returns the folder's post-append message count
(the appended message's sequence number) as a decimal string — not the
appended message's UID. -/
theorem add_email_returns_exists_count (mb : ImapMailbox) (raw : List Nat)
    (flags : Finset MailFlag) :
    (add_email mb raw flags).2 = Nat.repr (mb.msgs.length + 1)
    ∧ (add_email mb raw flags).1.msgs = mb.msgs ++ [⟨mb.uidNext, flags, raw⟩] := by
  constructor
  · simp [add_email]
  · rfl

/-! ## Theorems for C6 -/

/-- Claim C6 counterexample: when the server's LIST response reports
Sent before INBOX, list_folder returns the folders in that same order —
not lexicographic, and INBOX is not pinned first. -/
theorem list_folder_order_counterexample :
    (list_folder id [⟨"Sent", "/", []⟩, ⟨"INBOX", "/", []⟩]).map Folder.name
      = ["Sent", "INBOX"]
    ∧ (["Sent", "INBOX"] : List String) ≠ ["INBOX", "Sent"] := by
  refine ⟨rfl, by decide⟩

/-- Claim C6 amended: list_folder returns the folders in exactly the
order of the server's LIST response (names UTF-7 decoded); it performs
no sorting and no INBOX pinning. -/
theorem list_folder_preserves_server_order (decode : String → String)
    (mboxes : List ImapName) :
    (list_folder decode mboxes).map Folder.name
      = mboxes.map fun m => decode m.name := by
  simp [list_folder]

/-! ## Theorems for C7 -/

/-- Claim C7: for every folder content, page size and page, the envelope
list returned by list_envelope is sorted by date descending (newest
first). -/
theorem list_envelope_sorted_by_date_desc (mbox : List FetchEnv)
    (pageSize page : Nat) :
    List.Sorted (fun a b => b.date ≤ a.date) (list_envelope mbox pageSize page) := by
  unfold list_envelope
  split
  · exact List.sorted_nil
  · exact List.sorted_insertionSort _ _

/-! ## Theorems for C8 -/

/-- Claim C8: when a parsed() call on an Email succeeds, the raw bytes
are left unchanged, the parse tree is cached, and every subsequent
parsed() call — with any parser whatsoever, so no re-parsing can be
observed — returns the same parse tree and leaves the Email unchanged. -/
theorem email_parsed_memoized (parse : List Nat → Except Unit ParsedMail)
    (e e2 : Email) (p : ParsedMail)
    (h : Email.parsedFn parse e = .ok (p, e2)) :
    e2.raw = e.raw ∧ e2.parsed = some p
    ∧ ∀ parse2 : List Nat → Except Unit ParsedMail,
        Email.parsedFn parse2 e2 = .ok (p, e2) := by
  obtain ⟨raw, parsed⟩ := e
  cases parsed with
  | some p0 =>
    simp only [Email.parsedFn, Except.ok.injEq, Prod.mk.injEq] at h
    obtain ⟨hp, he⟩ := h
    subst hp
    subst he
    exact ⟨rfl, rfl, fun parse2 => rfl⟩
  | none =>
    simp only [Email.parsedFn] at h
    split at h
    · exact absurd h (by simp)
    · split at h
      · exact absurd h (by simp)
      · simp only [Except.ok.injEq, Prod.mk.injEq] at h
        obtain ⟨hp1, he⟩ := h
        subst hp1
        subst he
        exact ⟨rfl, rfl, fun parse2 => rfl⟩

/-- Witness for C8: a concrete owned-bytes email is parsed once; the
theorem instantiated at it. -/
theorem email_parsed_memoized_witness :
    (⟨RawEmail.vec [1], some ⟨[1]⟩⟩ : Email).raw = (⟨RawEmail.vec [1], none⟩ : Email).raw
    ∧ (⟨RawEmail.vec [1], some ⟨[1]⟩⟩ : Email).parsed = some ⟨[1]⟩
    ∧ ∀ parse2 : List Nat → Except Unit ParsedMail,
        Email.parsedFn parse2 ⟨RawEmail.vec [1], some ⟨[1]⟩⟩
          = .ok (⟨[1]⟩, ⟨RawEmail.vec [1], some ⟨[1]⟩⟩) :=
  email_parsed_memoized parseWrap ⟨RawEmail.vec [1], none⟩
    ⟨RawEmail.vec [1], some ⟨[1]⟩⟩ ⟨[1]⟩ rfl

/-! ## Theorems for C10 -/

/-- Claim C10: constructing an Email from an empty IMAP fetch list
returns the typed error ParseEmailFromImapFetchesEmptyError (no panic),
and as_raw / parsed on an IMAP-fetched Email whose first fetch carries
no body likewise return that typed error. -/
theorem email_empty_fetches_typed_error (fs : List Fetch)
    (parse : List Nat → Except Unit ParsedMail)
    (h : fs.head?.bind Fetch.body = none) :
    email_try_from_fetches [] = .error .ParseEmailFromImapFetchesEmptyError
    ∧ Email.as_raw ⟨.imapFetches fs, none⟩
        = .error .ParseEmailFromImapFetchesEmptyError
    ∧ Email.parsedFn parse ⟨.imapFetches fs, none⟩
        = .error .ParseEmailFromImapFetchesEmptyError := by
  have h2 : Email.as_raw ⟨.imapFetches fs, none⟩
      = .error .ParseEmailFromImapFetchesEmptyError := by
    simp only [Email.as_raw, h]
  refine ⟨rfl, h2, ?_⟩
  simp only [Email.parsedFn, h2]

/-- Witness for C10 at a single fetch without a body. -/
theorem email_empty_fetches_typed_error_witness :
    email_try_from_fetches [] = .error .ParseEmailFromImapFetchesEmptyError
    ∧ Email.as_raw ⟨.imapFetches [⟨none⟩], none⟩
        = .error .ParseEmailFromImapFetchesEmptyError
    ∧ Email.parsedFn parseWrap ⟨.imapFetches [⟨none⟩], none⟩
        = .error .ParseEmailFromImapFetchesEmptyError :=
  email_empty_fetches_typed_error [⟨none⟩] parseWrap rfl

/-! ## Theorems for C9 -/

/-- Every per-wake-up notified set is disjoint from the starting
snapshot. -/
theorem notifyRun_trace_disjoint (S : Finset Nat) (ws : List (Finset Nat)) :
    ∀ t ∈ (notifyRun S ws).2, Disjoint S t := by
  induction ws generalizing S with
  | nil => intro t ht; simp [notifyRun] at ht
  | cons w rest ih =>
    intro t ht
    simp only [notifyRun, List.mem_cons] at ht
    rcases ht with h1 | h2
    · subst h1
      exact Finset.sdiff_disjoint.symm
    · have hd := ih (S ∪ (w \ S)) t h2
      rw [Finset.disjoint_union_left] at hd
      exact hd.1

/-- The snapshot set only grows across the loop. -/
theorem notifyRun_subset (S : Finset Nat) (ws : List (Finset Nat)) :
    S ⊆ (notifyRun S ws).1 := by
  induction ws generalizing S with
  | nil => exact le_refl S
  | cons w rest ih =>
    exact le_trans Finset.subset_union_left (ih (S ∪ (w \ S)))

/-- Claim C9: on each IDLE wake-up the uids treated as new are exactly
the UID SEARCH result minus the snapshot S (third conjunct: the loop
unfolds to notifying w minus S and continuing with S grown by those
uids); the snapshot only grows (second conjunct); and across the whole
loop the per-wake-up notified sets are pairwise disjoint, so no uid ever
triggers the notify command twice (first conjunct). -/
theorem notify_new_uids_once (S0 : Finset Nat) (ws : List (Finset Nat)) :
    List.Pairwise (fun a b => Disjoint a b) (notifyRun S0 ws).2
    ∧ S0 ⊆ (notifyRun S0 ws).1
    ∧ ∀ (w : Finset Nat) (ws2 : List (Finset Nat)),
        notifyRun S0 (w :: ws2)
          = ((notifyRun (S0 ∪ (w \ S0)) ws2).1,
             (w \ S0) :: (notifyRun (S0 ∪ (w \ S0)) ws2).2) := by
  refine ⟨?_, notifyRun_subset S0 ws, fun w ws2 => rfl⟩
  induction ws generalizing S0 with
  | nil => exact List.Pairwise.nil
  | cons w rest ih =>
    refine List.Pairwise.cons ?_ (ih (S0 ∪ (w \ S0)))
    intro t ht
    have hd := notifyRun_trace_disjoint (S0 ∪ (w \ S0)) rest t ht
    rw [Finset.disjoint_union_left] at hd
    exact hd.2

/-! ## Theorems for C1 -/

/-- Flag convergence keeps the value when both sides agree. -/
theorem convergeFlag_self (isSeen x c1 c2 : Bool) :
    convergeFlag isSeen x x c1 c2 = x := by
  simp [convergeFlag]

/-- A flag held by both (equal) sides survives convergence. -/
theorem keepFlag_self (g c1 c2 : Finset MailFlag) (f : MailFlag)
    (hf : f ∈ g) : keepFlag g g c1 c2 f = true := by
  cases f <;> simp [keepFlag, convergeFlag_self, flagMem, hf]

/-- Convergence of two equal flag sets changes nothing, whatever the
caches hold. -/
theorem convergeFlags_self (g c1 c2 : Finset MailFlag) :
    convergeFlags g g c1 c2 = g := by
  ext f
  simp only [convergeFlags, Finset.mem_filter, Finset.mem_union, or_self]
  exact ⟨fun h => h.1, fun hf => ⟨hf, keepFlag_self g c1 c2 f hf⟩⟩

/-- One folder reconciliation leaves local side, remote side and both
cached sides all equal to the converged folder set. -/
theorem folderSync_uniform (s : FolderState) :
    folderSync s = ⟨folderSyncP s, folderSyncP s, folderSyncP s, folderSyncP s⟩ := by
  have hL : (s.L \ folderDeleteLocal s) ∪ folderCreateLocal s = folderSyncP s := by
    ext x
    simp only [folderSyncP, folderCreateRemote, folderCreateLocal,
      folderDeleteLocal, folderCache,
      Finset.mem_union, Finset.mem_sdiff, Finset.mem_inter]
    tauto
  have hR : (s.R \ folderDeleteRemote s) ∪ folderCreateRemote s = folderSyncP s := by
    ext x
    simp only [folderSyncP, folderCreateRemote, folderCreateLocal,
      folderDeleteRemote, folderCache,
      Finset.mem_union, Finset.mem_sdiff, Finset.mem_inter]
    tauto
  unfold folderSync
  rw [hL, hR]

/-- A converged folder state (all four components equal) is a fixed point
of folder reconciliation with no creations and no deletions. -/
theorem folderSync_converged (P : Finset String) :
    folderSync ⟨P, P, P, P⟩ = ⟨P, P, P, P⟩
    ∧ folderCreateRemote ⟨P, P, P, P⟩ = ∅
    ∧ folderCreateLocal ⟨P, P, P, P⟩ = ∅
    ∧ folderDeleteLocal ⟨P, P, P, P⟩ = ∅
    ∧ folderDeleteRemote ⟨P, P, P, P⟩ = ∅ := by
  simp [folderSync, folderSyncP, folderCreateRemote, folderCreateLocal,
    folderDeleteLocal, folderDeleteRemote, folderCache]

/-- After one envelope reconciliation step, a second step changes nothing
and applies no backend mutation — provided the id does not start in one
of the two spec rows (present on exactly one side, cached only on the
opposite side) that the first run merely uncaches. -/
theorem envStep_stable (s : EnvId)
    (h1 : s.l = none ∨ s.r ≠ none ∨ s.cl ≠ none ∨ s.cr = none)
    (h2 : s.r = none ∨ s.l ≠ none ∨ s.cr ≠ none ∨ s.cl = none) :
    envStep (envStep s).1 = ((envStep s).1, []) := by
  obtain ⟨l, r, cl, cr⟩ := s
  cases l <;> cases r <;> cases cl <;> cases cr <;>
    simp_all [envStep, convergeFlags_self]

/-- Claim C1 counterexample: an envelope present locally, absent
remotely, uncached locally and cached remotely — the spec's
(✓, ✗, ✗, ✓) row.  The first sync run only clears the cache entry (no
backend mutation), and the second run then copies the message local →
remote: the second back-to-back sync does apply a mutation, so sync is
not idempotent from every configuration. -/
theorem sync_second_run_counterexample :
    (envStep (envStep ⟨some ∅, none, none, some ∅⟩).1).2
      = [EAct.copyLocalToRemote]
    ∧ ([EAct.copyLocalToRemote] : List EAct) ≠ [] :=
  ⟨rfl, by simp⟩

/-- Claim C1 amended: running the reconciler twice back-to-back with no
external mutation between the runs produces no actions on the second
run — no folder creations or deletions, no envelope copies, deletes or
flag writes — and leaves the reconciler state (backends and sync cache)
unchanged, provided no envelope starts out present on exactly one side
while cached only on the opposite side (the spec's (✓,✗,✗,✓) row and its
mirror; from such a state the first run merely uncaches the id and the
second run re-copies it). -/
theorem sync_second_run_no_actions (fs : FolderState) (s : EnvId)
    (h1 : s.l = none ∨ s.r ≠ none ∨ s.cl ≠ none ∨ s.cr = none)
    (h2 : s.r = none ∨ s.l ≠ none ∨ s.cr ≠ none ∨ s.cl = none) :
    folderSync (folderSync fs) = folderSync fs
    ∧ folderCreateRemote (folderSync fs) = ∅
    ∧ folderCreateLocal (folderSync fs) = ∅
    ∧ folderDeleteLocal (folderSync fs) = ∅
    ∧ folderDeleteRemote (folderSync fs) = ∅
    ∧ envStep (envStep s).1 = ((envStep s).1, []) := by
  have hu := folderSync_uniform fs
  have hc := folderSync_converged (folderSyncP fs)
  rw [hu]
  exact ⟨hc.1, hc.2.1, hc.2.2.1, hc.2.2.2.1, hc.2.2.2.2,
    envStep_stable s h1 h2⟩

/-- Witness for the amended C1: a folder only present locally (created
remotely by the first run) and an envelope only present locally (copied
by the first run); the second run does nothing. -/
theorem sync_second_run_no_actions_witness :
    folderSync (folderSync ⟨{"A"}, ∅, ∅, ∅⟩) = folderSync ⟨{"A"}, ∅, ∅, ∅⟩
    ∧ folderCreateRemote (folderSync ⟨{"A"}, ∅, ∅, ∅⟩) = ∅
    ∧ folderCreateLocal (folderSync ⟨{"A"}, ∅, ∅, ∅⟩) = ∅
    ∧ folderDeleteLocal (folderSync ⟨{"A"}, ∅, ∅, ∅⟩) = ∅
    ∧ folderDeleteRemote (folderSync ⟨{"A"}, ∅, ∅, ∅⟩) = ∅
    ∧ envStep (envStep ⟨some {MailFlag.Seen}, none, none, none⟩).1
        = ((envStep ⟨some {MailFlag.Seen}, none, none, none⟩).1, []) :=
  sync_second_run_no_actions ⟨{"A"}, ∅, ∅, ∅⟩
    ⟨some {MailFlag.Seen}, none, none, none⟩
    (Or.inr (Or.inr (Or.inr rfl))) (Or.inl rfl)
